import Mathlib

/-!
Verification of the per-frame transform logic of the DIP-Video-Exercises
repository: a contrast-adjustment pipeline (KenCinco_Exer1.py) and a
gradual-rotation pipeline with scale-to-fit (KenCinco_Exer3.py).

Frames are modelled over exact real arithmetic (floats become reals,
8-bit samples become naturals bounded by 255); the frame source and sink
collaborators become explicit inputs (declared frame count, list of
readable frames, codec-open success flags).
-/

/-! ## Contrast pipeline (KenCinco_Exer1.py, process_video) -/

/-- A grayscale frame: rows of 8-bit samples (values are naturals,
boundedness by 255 is carried as a hypothesis where needed). -/
abbrev GFrame := List (List ℕ)

/-- Total number of samples of a grayscale frame. -/
def gCount (f : GFrame) : ℕ := (f.map List.length).sum

/-- Sum of all samples of a grayscale frame. -/
def gSum (f : GFrame) : ℕ := (f.map List.sum).sum

/-- `np.mean(gray)`: sum of all samples divided by their count. -/
noncomputable def gMean (f : GFrame) : ℝ := (gSum f : ℝ) / (gCount f : ℝ)

/-- `np.clip(v, 0, 255).astype(np.uint8)` on a scalar: clip to [0, 255]
(lower bound applied first, as np.clip does), then truncate to an integer. -/
noncomputable def clip8 (v : ℝ) : ℕ := (Int.toNat ⌊min 255 (max 0 v)⌋)

/-- The per-frame contrast transform of process_video:
`adjusted = alpha * (gray.astype(np.float32) - mean) + mean`, where
`mean = np.mean(gray)` is recomputed from the argument frame, followed by
`np.clip(..., 0, 255).astype(np.uint8)` on every sample. -/
noncomputable def contrastFrame (alpha : ℝ) (f : GFrame) : GFrame :=
  let m := gMean f
  f.map (fun row => row.map (fun s : ℕ => clip8 (alpha * ((s : ℝ) - m) + m)))

/-- The contrast transform as the specification words it: compute the
frame's mean sample value `m`; map every sample `s` to
`clamp(alpha * (s - m) + m, 0, 255)` truncated to an 8-bit unsigned
integer, changing nothing else about the frame. -/
noncomputable def specContrastFrame (alpha : ℝ) (f : GFrame) : GFrame :=
  f.map (fun row =>
    row.map (fun s : ℕ =>
      Int.toNat ⌊max 0 (min 255 (alpha * ((s : ℝ) - gMean f) + gMean f))⌋))

/-- The contrast mode string selecting the linear ramp. -/
def linearMode : String := "linear"

/-- The contrast mode string selecting the sine oscillation. -/
def sineMode : String := "sine"

/-- The contrast factor of process_video: `0.8 + (1.5 - 0.8) * progress`
in linear mode, `1.15 + 0.35 * math.sin(2 * math.pi * progress * 2)` in
sine mode, and `1.0` for any other mode string. -/
noncomputable def alphaOf (mode : String) (progress : ℝ) : ℝ :=
  if mode = linearMode then 0.8 + (1.5 - 0.8) * progress
  else if mode = sineMode then 1.15 + 0.35 * Real.sin (2 * Real.pi * progress * 2)
  else 1.0

/-- A BGR pixel as read by the frame source (blue, green, red). -/
abbrev BGRPix := ℕ × ℕ × ℕ

/-- A color frame: rows of BGR pixels. -/
abbrev ColorFrame := List (List BGRPix)

/-- `cv2.cvtColor(frame, cv2.COLOR_BGR2GRAY)` on one pixel:
`Y = 0.299 R + 0.587 G + 0.114 B`, rounded to the nearest integer. -/
def grayPix (p : BGRPix) : ℕ :=
  (round ((299 * (p.2.2 : ℚ) + 587 * (p.2.1 : ℚ) + 114 * (p.1 : ℚ)) / 1000)).toNat

/-- `cv2.cvtColor(frame, cv2.COLOR_BGR2GRAY)` on a whole frame: a
single-channel frame of the luma of each pixel. -/
def toGray (f : ColorFrame) : GFrame := f.map (List.map grayPix)

/-- One loop iteration of process_video on a frame that was read:
convert to grayscale, compute `progress = frame_idx / total_frames`,
derive alpha from the mode, and apply the contrast transform. -/
noncomputable def exer1FrameOut (mode : String) (totalFrames idx : ℕ)
    (f : ColorFrame) : GFrame :=
  contrastFrame (alphaOf mode ((idx : ℝ) / (totalFrames : ℝ))) (toGray f)

/-- The read-transform-write loop of process_video over the frames the
source actually yields. Python's `frame_idx / total_frames` raises
ZeroDivisionError when `total_frames` is 0 and a frame was read; the
error value models that exception. There is no guard in the script. -/
noncomputable def exer1Loop (mode : String) (totalFrames : ℕ) :
    ℕ → List ColorFrame → Except Unit (List GFrame)
  | _, [] => Except.ok []
  | idx, f :: fs =>
    if totalFrames = 0 then Except.error ()
    else
      match exer1Loop mode totalFrames (idx + 1) fs with
      | Except.error e => Except.error e
      | Except.ok rest => Except.ok (exer1FrameOut mode totalFrames idx f :: rest)

/-- The `isColor` flag process_video passes when opening its sink:
`cv2.VideoWriter(output_path, fourcc, fps, (width, height), isColor=False)`. -/
def exer1IsColor : Bool := false

/-! ## Rotation pipeline (KenCinco_Exer3.py, apply_gradual_rotation) -/

/-- A color frame for the rotation pipeline: dimensions plus a sample
function (row, column, channel). Samples outside the stated dimensions
are irrelevant; 8-bit boundedness is the `ValidC` hypothesis. -/
structure CFrame where
  width : ℕ
  height : ℕ
  data : ℕ → ℕ → Fin 3 → ℕ

/-- All samples of the frame fit in 8 bits. -/
def ValidC (f : CFrame) : Prop := ∀ y x c, f.data y x c ≤ 255

/-- Two frames agree as images: same dimensions and the same samples at
every in-range position. -/
def SameFrame (f g : CFrame) : Prop :=
  f.width = g.width ∧ f.height = g.height ∧
    ∀ y x c, y < f.height → x < f.width → f.data y x c = g.data y x c

/-- A 2x3 affine warp matrix, as produced by `cv2.getRotationMatrix2D`. -/
structure AffMat where
  m00 : ℝ
  m01 : ℝ
  m02 : ℝ
  m10 : ℝ
  m11 : ℝ
  m12 : ℝ

/-- `cv2.getRotationMatrix2D(center, angle, scale)` with `angle` in
degrees: with `a = scale * cos(angle * pi / 180)` and
`b = scale * sin(angle * pi / 180)`, the matrix
`[[a, b, (1 - a) * cx - b * cy], [-b, a, b * cx + (1 - a) * cy]]`. -/
noncomputable def rotMat2D (cx cy angle scale : ℝ) : AffMat :=
  let a := scale * Real.cos (angle * Real.pi / 180)
  let b := scale * Real.sin (angle * Real.pi / 180)
  ⟨a, b, (1 - a) * cx - b * cy, -b, a, b * cx + (1 - a) * cy⟩

/-- The source point a destination point pulls its sample from:
`cv2.warpAffine` (without WARP_INVERSE_MAP) inverts the 2x3 matrix, so
the source coordinates solve `M * (sx, sy, 1) = (x, y)`. -/
noncomputable def invPoint (M : AffMat) (x y : ℝ) : ℝ × ℝ :=
  let d := M.m00 * M.m11 - M.m01 * M.m10
  ((M.m11 * (x - M.m02) - M.m01 * (y - M.m12)) / d,
   (M.m00 * (y - M.m12) - M.m10 * (x - M.m02)) / d)

/-- Border handling of `cv2.warpAffine` (default BORDER_CONSTANT, value
0): a sample read outside the frame is 0. -/
noncomputable def pixAt (f : CFrame) (yy xx : ℤ) (c : Fin 3) : ℝ :=
  if 0 ≤ xx ∧ xx < (f.width : ℤ) ∧ 0 ≤ yy ∧ yy < (f.height : ℤ)
  then (f.data (Int.toNat yy) (Int.toNat xx) c : ℝ) else 0

/-- Bilinear interpolation (default INTER_LINEAR of `cv2.warpAffine`) of
a channel of the frame at real source coordinates. -/
noncomputable def bilin (f : CFrame) (sx sy : ℝ) (c : Fin 3) : ℝ :=
  let x0 := ⌊sx⌋
  let y0 := ⌊sy⌋
  let fx := sx - (x0 : ℝ)
  let fy := sy - (y0 : ℝ)
  (1 - fx) * (1 - fy) * pixAt f y0 x0 c +
    fx * (1 - fy) * pixAt f y0 (x0 + 1) c +
    (1 - fx) * fy * pixAt f (y0 + 1) x0 c +
    fx * fy * pixAt f (y0 + 1) (x0 + 1) c

/-- `saturate_cast<uchar>`: round to the nearest integer, clamp to
[0, 255]. -/
noncomputable def sat8 (v : ℝ) : ℕ := (Int.toNat (min 255 (max 0 (round v))))

/-- `cv2.warpAffine(frame, M, (dw, dh))`: the destination frame has the
requested size and pulls each sample by inverse-mapped bilinear
interpolation. -/
noncomputable def warpAffine (f : CFrame) (M : AffMat) (dw dh : ℕ) : CFrame :=
  ⟨dw, dh,
    fun y x c => sat8 (bilin f (invPoint M (x : ℝ) (y : ℝ)).1 (invPoint M (x : ℝ) (y : ℝ)).2 c)⟩

/-- The per-frame progress of apply_gradual_rotation:
`frame_idx / (total_frames - 1) if total_frames > 1 else 0`. -/
noncomputable def exer3Progress (totalFrames i : ℕ) : ℝ :=
  if 1 < totalFrames then (i : ℝ) / ((totalFrames - 1 : ℕ) : ℝ) else 0

/-- `current_angle = final_angle * progress`. -/
noncomputable def currentAngle (finalAngle : ℝ) (totalFrames i : ℕ) : ℝ :=
  finalAngle * exer3Progress totalFrames i

open Classical in
/-- The scale-to-fit factor of apply_gradual_rotation: 1.0 when the
angle (in degrees) is a multiple of 90; otherwise, with
`rad = |angle * pi / 180|`, `c = |cos rad|`, `s = |sin rad|`,
`min (W / (W*c + H*s)) (H / (W*s + H*c))`. -/
noncomputable def scalingFactor (W H angle : ℝ) : ℝ :=
  if ∃ k : ℤ, angle = 90 * (k : ℝ) then 1.0
  else
    let rad := |angle * Real.pi / 180|
    let c := |Real.cos rad|
    let s := |Real.sin rad|
    min (W / (W * c + H * s)) (H / (W * s + H * c))

/-- The normal (possibly clipping) rotated frame written to the first
sink: `warpAffine(frame, getRotationMatrix2D(center, current_angle, 1.0),
(width, height))` with `center = (width // 2, height // 2)`. -/
noncomputable def exer3Normal (W H : ℕ) (finalAngle : ℝ) (n i : ℕ) (f : CFrame) : CFrame :=
  warpAffine f
    (rotMat2D ((W / 2 : ℕ) : ℝ) ((H / 2 : ℕ) : ℝ) (currentAngle finalAngle n i) 1.0)
    W H

/-- The scaled (no-clip) rotated frame written to the second sink: same
angle and center, scale from `scalingFactor`. -/
noncomputable def exer3Scaled (W H : ℕ) (finalAngle : ℝ) (n i : ℕ) (f : CFrame) : CFrame :=
  warpAffine f
    (rotMat2D ((W / 2 : ℕ) : ℝ) ((H / 2 : ℕ) : ℝ) (currentAngle finalAngle n i)
      (scalingFactor (W : ℝ) (H : ℝ) (currentAngle finalAngle n i)))
    W H

/-! ## Run traces: sink open, codec fallback, resource release -/

/-- Observable trace of one process_video run (KenCinco_Exer1.py),
driven by whether the source opened, whether the mp4v sink opened, and
how many frames the source yields. The script never checks the sink and
has no fallback: it opens one writer, loops, releases, and prints the
finished message; a write on an unopened writer persists nothing. -/
structure Exer1Run where
  sinkAttempts : ℕ
  fellBack : Bool
  reportedFailure : Bool
  framesWritten : ℕ
  srcReleased : Bool
  sinkReleased : Bool

/-- process_video as a trace: early return with an error message when
the source fails to open; otherwise a single mp4v sink-open attempt with
no isOpened check, the full loop, both releases, and a success message. -/
def exer1Trace (srcOk mp4vOk : Bool) (numFrames : ℕ) : Exer1Run :=
  if srcOk = false then ⟨0, false, true, 0, false, false⟩
  else ⟨1, false, false, if mp4vOk then numFrames else 0, true, true⟩

/-- Observable trace of one apply_gradual_rotation run
(KenCinco_Exer3.py). -/
structure Exer3Run where
  srcAcquired : Bool
  srcReleased : Bool
  sinkAttempts : ℕ
  fellBack : Bool
  sinksOpened : Bool
  sinksReleased : Bool
  success : Bool
  framesWritten : ℕ

/-- apply_gradual_rotation as a trace: return False when the source
fails to open; otherwise try mp4v for both writers, on failure release
them and try XVID once, and if that also fails print an error and
return False without writing a frame and without releasing the capture;
on an opened sink pair, process the frames (two writes each) and
release capture and writers at the end. -/
def exer3Trace (srcOk mp4vOk xvidOk : Bool) (numFrames : ℕ) : Exer3Run :=
  if srcOk = false then ⟨false, false, 0, false, false, false, false, 0⟩
  else if mp4vOk then ⟨true, true, 1, false, true, true, true, 2 * numFrames⟩
  else if xvidOk then ⟨true, true, 2, true, true, true, true, 2 * numFrames⟩
  else ⟨true, false, 2, true, false, false, false, 0⟩

/-! ## Helper lemmas -/

/-- Clipping below then above equals clamping above then below. -/
theorem min_max_clamp (v : ℝ) : min 255 (max 0 v) = max 0 (min 255 v) := by
  rcases le_total v 0 with h | h
  · rw [max_eq_left h, min_eq_right (by norm_num : (0 : ℝ) ≤ 255),
      max_eq_left (le_trans (min_le_right _ _) h)]
  · rcases le_total v 255 with h2 | h2
    · rw [max_eq_right h, min_eq_right h2, max_eq_right h]
    · rw [max_eq_right h, min_eq_left h2,
        max_eq_right (by norm_num : (0 : ℝ) ≤ 255)]

/-- The contrast transform at factor 1 leaves an 8-bit sample alone. -/
theorem clip8_of_le (s : ℕ) (hs : s ≤ 255) : clip8 ((s : ℕ) : ℝ) = s := by
  unfold clip8
  rw [max_eq_right (by positivity), min_eq_right (by exact_mod_cast hs)]
  simp

/-- The contrast transform at factor 1 is the identity on frames of
8-bit samples. -/
theorem contrastFrame_one (f : GFrame) (hv : ∀ row ∈ f, ∀ s ∈ row, s ≤ 255) :
    contrastFrame 1 f = f := by
  unfold contrastFrame
  have h1 : ∀ row ∈ f,
      (row.map fun s : ℕ => clip8 (1 * ((s : ℝ) - gMean f) + gMean f)) = row := by
    intro row hrow
    have h2 : ∀ s ∈ row, clip8 (1 * ((s : ℝ) - gMean f) + gMean f) = s := by
      intro s hs
      have he : 1 * ((s : ℝ) - gMean f) + gMean f = ((s : ℕ) : ℝ) := by ring
      rw [he, clip8_of_le s (hv row hrow s hs)]
    calc (row.map fun s : ℕ => clip8 (1 * ((s : ℝ) - gMean f) + gMean f))
        = row.map id := List.map_congr_left h2
      _ = row := List.map_id row
  calc f.map (fun row => row.map fun s : ℕ => clip8 (1 * ((s : ℝ) - gMean f) + gMean f))
      = f.map id := List.map_congr_left h1
    _ = f := List.map_id f

/-- The two clamp-truncate spellings agree sample by sample, so the
implemented transform and the spec-worded transform agree on frames. -/
theorem contrastFrame_eq_spec (alpha : ℝ) (f : GFrame) :
    contrastFrame alpha f = specContrastFrame alpha f := by
  simp only [contrastFrame, specContrastFrame, clip8, min_max_clamp]

/-! ## Claim theorems -/

/-- Claim C1: for every grayscale frame and every progress value, the
Contrast Adjuster computes the frame's mean sample value m fresh for
that frame and maps every sample s to clamp(alpha * (s - m) + m, 0, 255)
truncated to an 8-bit unsigned integer, with no other change to the
frame. -/
theorem contrast_matches_spec (mode : String) (n i : ℕ) (cf : ColorFrame) :
    exer1FrameOut mode n i cf =
      specContrastFrame (alphaOf mode ((i : ℝ) / (n : ℝ))) (toGray cf) := by
  unfold exer1FrameOut
  exact contrastFrame_eq_spec _ _

/-- Claim C4: the contrast factor alpha is determined solely by mode and
progress: linear mode ramps monotonically from 0.8 at progress 0 to 1.5
at progress 1 via alpha = 0.8 + (1.5 - 0.8) * progress; sine mode is
alpha = 1.15 + 0.35 * sin(2 pi * progress * 2); any other mode gives
alpha = 1.0. -/
theorem alpha_curves (mode : String) (p q r : ℝ) (hpq : p < q)
    (hl : mode ≠ linearMode) (hs : mode ≠ sineMode) :
    alphaOf linearMode r = 0.8 + (1.5 - 0.8) * r ∧
    alphaOf linearMode 0 = 0.8 ∧
    alphaOf linearMode 1 = 1.5 ∧
    alphaOf linearMode p < alphaOf linearMode q ∧
    alphaOf sineMode r = 1.15 + 0.35 * Real.sin (2 * Real.pi * r * 2) ∧
    alphaOf mode r = 1 := by
  have hlin : ∀ x : ℝ, alphaOf linearMode x = 0.8 + (1.5 - 0.8) * x := by
    intro x
    unfold alphaOf
    rw [if_pos rfl]
  have hsin : ∀ x : ℝ,
      alphaOf sineMode x = 1.15 + 0.35 * Real.sin (2 * Real.pi * x * 2) := by
    intro x
    unfold alphaOf
    rw [if_neg (by decide : ¬ (sineMode = linearMode)), if_pos rfl]
  refine ⟨hlin r, ?_, ?_, ?_, hsin r, ?_⟩
  · rw [hlin]; norm_num
  · rw [hlin]; norm_num
  · rw [hlin, hlin]; nlinarith [hpq]
  · unfold alphaOf
    rw [if_neg hl, if_neg hs]
    norm_num

/-- Claim C4 witness: concrete inputs satisfying the hypotheses. -/
theorem alpha_curves_witness :
    (0 : ℝ) < 1 ∧ ("const" : String) ≠ linearMode ∧ ("const" : String) ≠ sineMode ∧
    (alphaOf linearMode 0.25 = 0.8 + (1.5 - 0.8) * 0.25 ∧
     alphaOf linearMode 0 = 0.8 ∧
     alphaOf linearMode 1 = 1.5 ∧
     alphaOf linearMode 0 < alphaOf linearMode 1 ∧
     alphaOf sineMode 0.25 = 1.15 + 0.35 * Real.sin (2 * Real.pi * 0.25 * 2) ∧
     alphaOf ("const") 0.25 = 1) :=
  ⟨by norm_num, by decide, by decide,
    alpha_curves ("const") 0 1 0.25 (by norm_num) (by decide) (by decide)⟩

/-- Claim C5: with alpha = 1.0 (any mode other than linear or sine) the
Contrast Adjuster's output equals its input exactly, and applying it
twice with alpha = 1.0 reproduces the original frame exactly. -/
theorem contrast_identity (mode : String) (p : ℝ) (f : GFrame)
    (hl : mode ≠ linearMode) (hs : mode ≠ sineMode)
    (hv : ∀ row ∈ f, ∀ s ∈ row, s ≤ 255) :
    alphaOf mode p = 1 ∧
    contrastFrame (alphaOf mode p) f = f ∧
    contrastFrame (alphaOf mode p) (contrastFrame (alphaOf mode p) f) = f := by
  have ha : alphaOf mode p = 1 := by
    unfold alphaOf
    rw [if_neg hl, if_neg hs]
    norm_num
  have h1 : contrastFrame (alphaOf mode p) f = f := by
    rw [ha]
    exact contrastFrame_one f hv
  exact ⟨ha, h1, by rw [h1, h1]⟩

/-- Claim C5 witness: a concrete 8-bit frame and a non-linear,
non-sine mode. -/
theorem contrast_identity_witness :
    ("const" : String) ≠ linearMode ∧ ("const" : String) ≠ sineMode ∧
    (∀ row ∈ [[7, 200], [0, 255]], ∀ s ∈ row, s ≤ 255) ∧
    (alphaOf ("const") 0.5 = 1 ∧
     contrastFrame (alphaOf ("const") 0.5) [[7, 200], [0, 255]] = [[7, 200], [0, 255]] ∧
     contrastFrame (alphaOf ("const") 0.5)
        (contrastFrame (alphaOf ("const") 0.5) [[7, 200], [0, 255]]) = [[7, 200], [0, 255]]) :=
  ⟨by decide, by decide, by decide,
    contrast_identity ("const") 0.5 [[7, 200], [0, 255]] (by decide) (by decide) (by decide)⟩

/-- Claim C6: every transform of either pipeline preserves frame
dimensions: the contrast output has the same row count and row lengths
as its input, and both rotation outputs have the input frame's width
and height. -/
theorem dims_preserved (alpha : ℝ) (g : GFrame) (W H n i : ℕ) (ang : ℝ) (f : CFrame)
    (hw : f.width = W) (hh : f.height = H) :
    (contrastFrame alpha g).length = g.length ∧
    (contrastFrame alpha g).map List.length = g.map List.length ∧
    (exer3Normal W H ang n i f).width = f.width ∧
    (exer3Normal W H ang n i f).height = f.height ∧
    (exer3Scaled W H ang n i f).width = f.width ∧
    (exer3Scaled W H ang n i f).height = f.height := by
  refine ⟨?_, ?_, ?_, ?_, ?_, ?_⟩
  · simp [contrastFrame]
  · simp [contrastFrame, List.map_map, Function.comp_def, List.length_map]
  · rw [hw]; rfl
  · rw [hh]; rfl
  · rw [hw]; rfl
  · rw [hh]; rfl

/-- Claim C6 witness: a concrete grayscale frame and a concrete color
frame whose dimensions match the run metadata. -/
theorem dims_preserved_witness :
    (CFrame.mk 2 3 (fun _ _ _ => 9)).width = 2 ∧
    (CFrame.mk 2 3 (fun _ _ _ => 9)).height = 3 ∧
    ((contrastFrame 1.2 [[5, 6], [7, 8]]).length = ([[5, 6], [7, 8]] : GFrame).length ∧
     (contrastFrame 1.2 [[5, 6], [7, 8]]).map List.length
        = ([[5, 6], [7, 8]] : GFrame).map List.length ∧
     (exer3Normal 2 3 360 10 4 (CFrame.mk 2 3 (fun _ _ _ => 9))).width
        = (CFrame.mk 2 3 (fun _ _ _ => 9)).width ∧
     (exer3Normal 2 3 360 10 4 (CFrame.mk 2 3 (fun _ _ _ => 9))).height
        = (CFrame.mk 2 3 (fun _ _ _ => 9)).height ∧
     (exer3Scaled 2 3 360 10 4 (CFrame.mk 2 3 (fun _ _ _ => 9))).width
        = (CFrame.mk 2 3 (fun _ _ _ => 9)).width ∧
     (exer3Scaled 2 3 360 10 4 (CFrame.mk 2 3 (fun _ _ _ => 9))).height
        = (CFrame.mk 2 3 (fun _ _ _ => 9)).height) :=
  ⟨rfl, rfl, dims_preserved 1.2 [[5, 6], [7, 8]] 2 3 10 4 360
    (CFrame.mk 2 3 (fun _ _ _ => 9)) rfl rfl⟩

/-- Claim C10: the contrast pipeline accepts color input, converts every
frame to grayscale before the contrast transform, preserves the pixel
grid under that conversion, and opens its sink in single-channel mode,
so the output video is grayscale regardless of the input's color
format. -/
theorem grayscale_pipeline (mode : String) (n i : ℕ) (cf : ColorFrame) :
    exer1FrameOut mode n i cf
      = contrastFrame (alphaOf mode ((i : ℝ) / (n : ℝ))) (toGray cf) ∧
    (toGray cf).map List.length = cf.map List.length ∧
    exer1IsColor = false := by
  refine ⟨rfl, ?_, rfl⟩
  simp [toGray, List.map_map, Function.comp_def, List.length_map]

/-- Claim C7 counterexample: the contrast script has no guard on its
progress denominator; with a declared total of 0 frames and one readable
frame, the loop body raises a division-by-zero error. -/
theorem progress_division_cex :
    exer1Loop linearMode 0 0 [[[(0, 0, 0)]]] = Except.error () := by
  rfl

/-- Claim C7 amended: the rotation pipeline guards the one-or-fewer
frames case explicitly, so its progress denominator is nonzero whenever
the division is taken; the contrast pipeline divides by the declared
total frame count without a guard, so every frame processes without a
division error exactly when that count is nonzero. -/
theorem progress_division_amended (mode : String) (n idx : ℕ)
    (frames : List ColorFrame) (hn : n ≠ 0) :
    (∃ out, exer1Loop mode n idx frames = Except.ok out) ∧
    (1 < n → ((n : ℝ) - 1) ≠ 0 ∧
      ∀ i : ℕ, exer3Progress n i = (i : ℝ) / ((n : ℝ) - 1)) := by
  constructor
  · induction frames generalizing idx with
    | nil => exact ⟨[], rfl⟩
    | cons f fs ih =>
      obtain ⟨out, hout⟩ := ih (idx + 1)
      refine ⟨exer1FrameOut mode n idx f :: out, ?_⟩
      simp [exer1Loop, hn, hout]
  · intro h1
    have h2 : (2 : ℝ) ≤ (n : ℝ) := by exact_mod_cast h1
    have hcast : ((n - 1 : ℕ) : ℝ) = (n : ℝ) - 1 := by
      rw [Nat.cast_sub (le_of_lt h1), Nat.cast_one]
    refine ⟨by linarith, fun i => ?_⟩
    unfold exer3Progress
    rw [if_pos h1, hcast]

/-- Claim C7 witness for the amended statement: a two-frame declared
count with one readable frame. -/
theorem progress_division_amended_witness :
    (2 : ℕ) ≠ 0 ∧
    ((∃ out, exer1Loop linearMode 2 0 [[[(1, 2, 3)]]] = Except.ok out) ∧
     (1 < 2 → ((2 : ℕ) : ℝ) - 1 ≠ 0 ∧
       ∀ i : ℕ, exer3Progress 2 i = (i : ℝ) / (((2 : ℕ) : ℝ) - 1))) :=
  ⟨by decide, progress_division_amended linearMode 2 0 [[[(1, 2, 3)]]] (by decide)⟩

/-- Claim C8 counterexample: when the contrast script's mp4v sink fails
to open, the run performs no fallback attempt, opens the sink only once,
and still finishes without reporting failure. -/
theorem codec_fallback_cex :
    (exer1Trace true false 3).fellBack = false ∧
    (exer1Trace true false 3).reportedFailure = false ∧
    (exer1Trace true false 3).sinkAttempts = 1 :=
  ⟨rfl, rfl, rfl⟩

/-- Claim C8 amended: the rotation pipeline opens its sinks at most
twice, falls back exactly once when the primary mp4v open fails, and on
a failed fallback aborts reporting failure with no frame written; the
contrast pipeline makes a single sink-open attempt and never falls back
nor reports sink failure. -/
theorem codec_fallback_amended (srcOk mp4vOk xvidOk : Bool) (k : ℕ) :
    (exer3Trace srcOk mp4vOk xvidOk k).sinkAttempts ≤ 2 ∧
    (exer3Trace srcOk mp4vOk xvidOk k).fellBack = (srcOk && !mp4vOk) ∧
    (exer3Trace true true xvidOk k).sinkAttempts = 1 ∧
    (exer3Trace true false false k).success = false ∧
    (exer3Trace true false false k).framesWritten = 0 ∧
    (exer1Trace srcOk mp4vOk k).fellBack = false ∧
    (exer1Trace srcOk mp4vOk k).sinkAttempts ≤ 1 := by
  cases srcOk <;> cases mp4vOk <;> cases xvidOk <;>
    simp [exer3Trace, exer1Trace]

/-- Claim C9: on the rotation pipeline's sink-open-failure-after-
fallback exit path the acquired source handle is not released, contrary
to the release-on-every-exit-path requirement; on the paths that do
process frames, source and sinks are all released. -/
theorem source_release_bug :
    (exer3Trace true false false 5).srcAcquired = true ∧
    (exer3Trace true false false 5).srcReleased = false ∧
    (∀ k : ℕ,
      (exer3Trace true true true k).srcReleased = true ∧
      (exer3Trace true true true k).sinksReleased = true ∧
      (exer3Trace true false true k).srcReleased = true ∧
      (exer3Trace true false true k).sinksReleased = true ∧
      (exer1Trace true true k).srcReleased = true ∧
      (exer1Trace true true k).sinkReleased = true) :=
  ⟨rfl, rfl, fun _ => ⟨rfl, rfl, rfl, rfl, rfl, rfl⟩⟩

/-! ## Rotation lemmas -/

/-- The absolute sine of an absolute angle is the absolute sine of the
angle. -/
theorem abs_sin_abs (x : ℝ) : |Real.sin (abs x)| = |Real.sin x| := by
  rcases abs_cases x with ⟨h1, h2⟩ | ⟨h1, h2⟩
  · rw [h1]
  · rw [h1, Real.sin_neg, abs_neg]

/-- At an angle that is a multiple of 90 degrees the scale-to-fit factor
is exactly 1. -/
theorem scalingFactor_of_multiple (W H φ : ℝ) (h : ∃ k : ℤ, φ = 90 * (k : ℝ)) :
    scalingFactor W H φ = 1 := by
  unfold scalingFactor
  rw [if_pos h]
  norm_num

/-- Away from multiples of 90 degrees the scale-to-fit factor is the
min-of-ratios formula in the absolute cosine and sine of the angle in
radians. -/
theorem scalingFactor_of_not_multiple (W H θ : ℝ)
    (hθ : ¬ ∃ k : ℤ, θ = 90 * (k : ℝ)) :
    scalingFactor W H θ =
      min (W / (W * |Real.cos (θ * Real.pi / 180)| + H * |Real.sin (θ * Real.pi / 180)|))
        (H / (W * |Real.sin (θ * Real.pi / 180)| + H * |Real.cos (θ * Real.pi / 180)|)) := by
  unfold scalingFactor
  rw [if_neg hθ]
  simp only [Real.cos_abs, abs_sin_abs]

/-- A zero-degree, unit-scale warp matrix is the identity matrix. -/
theorem rotMat2D_zero (cx cy : ℝ) : rotMat2D cx cy 0 1 = ⟨1, 0, 0, 0, 1, 0⟩ := by
  simp [rotMat2D]

/-- Inverting the identity matrix maps every point to itself. -/
theorem invPoint_id (x y : ℝ) : invPoint ⟨1, 0, 0, 0, 1, 0⟩ x y = (x, y) := by
  simp [invPoint]

/-- Sampling at an in-range integer point reads the stored sample. -/
theorem pixAt_natCast (f : CFrame) (x y : ℕ) (c : Fin 3)
    (hx : x < f.width) (hy : y < f.height) :
    pixAt f (y : ℤ) (x : ℤ) c = (f.data y x c : ℝ) := by
  unfold pixAt
  rw [if_pos ⟨Int.natCast_nonneg x, by exact_mod_cast hx,
    Int.natCast_nonneg y, by exact_mod_cast hy⟩]
  simp

/-- Bilinear interpolation at an exact in-range integer point is the
stored sample. -/
theorem bilin_natCast (f : CFrame) (x y : ℕ) (c : Fin 3)
    (hx : x < f.width) (hy : y < f.height) :
    bilin f (x : ℝ) (y : ℝ) c = (f.data y x c : ℝ) := by
  simp only [bilin, Int.floor_natCast]
  push_cast
  simp [sub_self, pixAt_natCast f x y c hx hy]

/-- Saturating an exact 8-bit sample returns it unchanged. -/
theorem sat8_natCast (n : ℕ) (hn : n ≤ 255) : sat8 ((n : ℕ) : ℝ) = n := by
  unfold sat8
  rw [round_natCast, max_eq_right (Int.natCast_nonneg n),
    min_eq_right (by exact_mod_cast hn)]
  simp

/-- Warping a valid frame by a zero-degree, unit-scale matrix about any
center reproduces the frame. -/
theorem warp_identity (f : CFrame) (hv : ValidC f) (cx cy : ℝ) :
    SameFrame (warpAffine f (rotMat2D cx cy 0 1) f.width f.height) f := by
  refine ⟨rfl, rfl, ?_⟩
  intro y x c hy hx
  show sat8 (bilin f (invPoint (rotMat2D cx cy 0 1) (x : ℝ) (y : ℝ)).1
      (invPoint (rotMat2D cx cy 0 1) (x : ℝ) (y : ℝ)).2 c) = f.data y x c
  rw [rotMat2D_zero, invPoint_id]
  rw [bilin_natCast f x y c hx hy]
  exact sat8_natCast _ (hv y x c)

/-- Claim C2: for canvas width W, height H and angle θ the scale-to-fit
factor is 1.0 when θ is a multiple of 90 degrees and otherwise equals
min(W / (W|cos θ| + H|sin θ|), H / (W|sin θ| + H|cos θ|)); for a
non-multiple of 90 the factor lies in (0, 1] and the rotated, scaled
rectangle's bounding box fits within W times H. -/
theorem scale_to_fit (W H θ : ℝ) (hW : 0 < W) (hH : 0 < H)
    (hθ : ¬ ∃ k : ℤ, θ = 90 * (k : ℝ)) :
    (∀ φ : ℝ, (∃ k : ℤ, φ = 90 * (k : ℝ)) → scalingFactor W H φ = 1) ∧
    scalingFactor W H θ =
      min (W / (W * |Real.cos (θ * Real.pi / 180)| + H * |Real.sin (θ * Real.pi / 180)|))
        (H / (W * |Real.sin (θ * Real.pi / 180)| + H * |Real.cos (θ * Real.pi / 180)|)) ∧
    0 < scalingFactor W H θ ∧
    scalingFactor W H θ ≤ 1 ∧
    scalingFactor W H θ *
        (W * |Real.cos (θ * Real.pi / 180)| + H * |Real.sin (θ * Real.pi / 180)|) ≤ W ∧
    scalingFactor W H θ *
        (W * |Real.sin (θ * Real.pi / 180)| + H * |Real.cos (θ * Real.pi / 180)|) ≤ H := by
  have heq := scalingFactor_of_not_multiple W H θ hθ
  set c := |Real.cos (θ * Real.pi / 180)| with hc
  set s := |Real.sin (θ * Real.pi / 180)| with hs
  have hc0 : 0 ≤ c := abs_nonneg _
  have hs0 : 0 ≤ s := abs_nonneg _
  have hc1 : c ≤ 1 := Real.abs_cos_le_one _
  have hs1 : s ≤ 1 := Real.abs_sin_le_one _
  have hpyth : c ^ 2 + s ^ 2 = 1 := by
    rw [hc, hs, sq_abs, sq_abs]
    exact Real.cos_sq_add_sin_sq _
  have hcs : 1 ≤ c + s := by nlinarith
  have hm : 0 < min W H := lt_min hW hH
  have h3 : 0 ≤ min W H * (c + s - 1) := mul_nonneg (le_of_lt hm) (by linarith)
  have hA : 0 < W * c + H * s := by
    have h1 : 0 ≤ (W - min W H) * c := mul_nonneg (sub_nonneg.2 (min_le_left W H)) hc0
    have h2 : 0 ≤ (H - min W H) * s := mul_nonneg (sub_nonneg.2 (min_le_right W H)) hs0
    nlinarith [h1, h2, h3, hm]
  have hB : 0 < W * s + H * c := by
    have h1 : 0 ≤ (W - min W H) * s := mul_nonneg (sub_nonneg.2 (min_le_left W H)) hs0
    have h2 : 0 ≤ (H - min W H) * c := mul_nonneg (sub_nonneg.2 (min_le_right W H)) hc0
    nlinarith [h1, h2, h3, hm]
  refine ⟨fun φ h => scalingFactor_of_multiple W H φ h, heq, ?_, ?_, ?_, ?_⟩
  · rw [heq]
    exact lt_min (div_pos hW hA) (div_pos hH hB)
  · rw [heq]
    by_cases hWA : W ≤ W * c + H * s
    · exact le_trans (min_le_left _ _) ((div_le_one hA).2 hWA)
    · push_neg at hWA
      have hx : (W + H) * 1 ≤ (W + H) * (c + s) :=
        mul_le_mul_of_nonneg_left hcs (by linarith)
      have hHB : H ≤ W * s + H * c := by nlinarith [hx]
      exact le_trans (min_le_right _ _) ((div_le_one hB).2 hHB)
  · rw [heq]
    calc min (W / (W * c + H * s)) (H / (W * s + H * c)) * (W * c + H * s)
        ≤ W / (W * c + H * s) * (W * c + H * s) :=
          mul_le_mul_of_nonneg_right (min_le_left _ _) (le_of_lt hA)
      _ = W := div_mul_cancel₀ W (ne_of_gt hA)
  · rw [heq]
    calc min (W / (W * c + H * s)) (H / (W * s + H * c)) * (W * s + H * c)
        ≤ H / (W * s + H * c) * (W * s + H * c) :=
          mul_le_mul_of_nonneg_right (min_le_right _ _) (le_of_lt hB)
      _ = H := div_mul_cancel₀ H (ne_of_gt hB)

/-- Claim C2 witness: the 640 by 480 canvas at 45 degrees. -/
theorem scale_to_fit_witness :
    (0 : ℝ) < 640 ∧ (0 : ℝ) < 480 ∧ (¬ ∃ k : ℤ, (45 : ℝ) = 90 * (k : ℝ)) ∧
    ((∀ φ : ℝ, (∃ k : ℤ, φ = 90 * (k : ℝ)) → scalingFactor 640 480 φ = 1) ∧
     scalingFactor 640 480 45 =
       min (640 / (640 * |Real.cos ((45 : ℝ) * Real.pi / 180)| + 480 * |Real.sin ((45 : ℝ) * Real.pi / 180)|))
         (480 / (640 * |Real.sin ((45 : ℝ) * Real.pi / 180)| + 480 * |Real.cos ((45 : ℝ) * Real.pi / 180)|)) ∧
     0 < scalingFactor 640 480 45 ∧
     scalingFactor 640 480 45 ≤ 1 ∧
     scalingFactor 640 480 45 *
         (640 * |Real.cos ((45 : ℝ) * Real.pi / 180)| + 480 * |Real.sin ((45 : ℝ) * Real.pi / 180)|) ≤ 640 ∧
     scalingFactor 640 480 45 *
         (640 * |Real.sin ((45 : ℝ) * Real.pi / 180)| + 480 * |Real.cos ((45 : ℝ) * Real.pi / 180)|) ≤ 480) := by
  have h45 : ¬ ∃ k : ℤ, (45 : ℝ) = 90 * (k : ℝ) := by
    rintro ⟨k, hk⟩
    have h4 : (90 : ℤ) * k = 45 := by exact_mod_cast hk.symm
    omega
  exact ⟨by norm_num, by norm_num, h45,
    scale_to_fit 640 480 45 (by norm_num) (by norm_num) h45⟩

/-- Claim C3: the angle applied to frame i is final_angle * progress(i)
with progress(i) = i / (total - 1) for total > 1 and 0 otherwise; for a
1-frame clip with final angle 360 the progress is 0, the angle is 0
degrees, and both output frames are identical to the input frame. -/
theorem rotation_sweep_one_frame (W H n i : ℕ) (θf : ℝ) (f : CFrame)
    (hv : ValidC f) (hw : f.width = W) (hh : f.height = H) :
    currentAngle θf n i = θf * (if 1 < n then (i : ℝ) / ((n : ℝ) - 1) else 0) ∧
    (n = 1 → θf = 360 →
      SameFrame (exer3Normal W H θf n i f) f ∧
      SameFrame (exer3Scaled W H θf n i f) f) := by
  constructor
  · unfold currentAngle exer3Progress
    by_cases h : 1 < n
    · rw [if_pos h, if_pos h, Nat.cast_sub (le_of_lt h), Nat.cast_one]
    · rw [if_neg h, if_neg h]
  · intro hn hθf
    subst hn
    subst hθf
    have hang : currentAngle 360 1 i = 0 := by
      simp [currentAngle, exer3Progress]
    constructor
    · unfold exer3Normal
      rw [hang]
      have h1 : (1.0 : ℝ) = 1 := by norm_num
      rw [h1, ← hw, ← hh]
      exact warp_identity f hv _ _
    · unfold exer3Scaled
      rw [hang]
      have hsf : scalingFactor (W : ℝ) (H : ℝ) 0 = 1 :=
        scalingFactor_of_multiple _ _ _ ⟨0, by norm_num⟩
      rw [hsf, ← hw, ← hh]
      exact warp_identity f hv _ _

/-- Claim C3 witness: a concrete valid 1 by 1 frame in a 1-frame clip
with final angle 360. -/
theorem rotation_sweep_one_frame_witness :
    ValidC (CFrame.mk 1 1 (fun _ _ _ => 7)) ∧
    (CFrame.mk 1 1 (fun _ _ _ => 7)).width = 1 ∧
    (CFrame.mk 1 1 (fun _ _ _ => 7)).height = 1 ∧
    (currentAngle 360 1 0 =
        360 * (if 1 < 1 then ((0 : ℕ) : ℝ) / (((1 : ℕ) : ℝ) - 1) else 0) ∧
     ((1 : ℕ) = 1 → (360 : ℝ) = 360 →
       SameFrame (exer3Normal 1 1 360 1 0 (CFrame.mk 1 1 (fun _ _ _ => 7)))
         (CFrame.mk 1 1 (fun _ _ _ => 7)) ∧
       SameFrame (exer3Scaled 1 1 360 1 0 (CFrame.mk 1 1 (fun _ _ _ => 7)))
         (CFrame.mk 1 1 (fun _ _ _ => 7)))) := by
  refine ⟨fun _ _ _ => by norm_num, rfl, rfl, ?_⟩
  exact rotation_sweep_one_frame 1 1 1 0 360 (CFrame.mk 1 1 (fun _ _ _ => 7))
    (fun _ _ _ => by norm_num) rfl rfl
